import Mathlib

/- Verification of the telephony audio bridge (src/main.py):
   the G.711-style mu-law codec (pcm16_to_mulaw, make_beep_mulaw) and the
   per-call session handler (twilio_ws).  Machine integers are modelled as
   Int/Nat with explicit two's-complement wrapping where the numpy code
   works on int16/int32 arrays. -/

namespace AmharicVoice

set_option maxRecDepth 8000

/-- Two's-complement wrap to a signed 16-bit value; models numpy astype(np.int16). -/
def toInt16 (n : Int) : Int := (n + 32768) % 65536 - 32768

/-- Unsigned 16-bit representation (the raw bits) of an int16 value. -/
def int16Bits (x : Int) : Nat := (x % 65536).toNat

/-- Sign byte of a sample: models (x >> 8) & 0x80 on int16, computed on the
16-bit two's-complement bits (arithmetic shift then mask agrees with the
logical shift of the bits on the low 8 bits). -/
def signBit (x : Int) : Nat := (int16Bits x >>> 8) &&& 128

/-- Models np.abs on int16: the absolute value wraps, so np.abs(-32768) = -32768.
The subsequent astype(np.int32) in the source widens losslessly. -/
def absInt16 (x : Int) : Int := toInt16 (x.natAbs : Int)

/-- MU_LAW_MAX = 0x1FFF from the source. -/
def MU_LAW_MAX : Int := 8191

/-- BIAS = 33 from the source. -/
def BIAS : Int := 33

/-- The exponent search of pcm16_to_mulaw: exponent starts at 0, mask at 0x1000,
and for exp = 7 down to 1 the source executes
exponent = np.where(x and mask, exp, exponent); mask >>= 1.
Each pass with a set bit OVERWRITES the accumulator, so the final value is the
LOWEST exp in 1..7 whose mask bit is set (0 if none), not the highest. -/
def expFold (uv : Nat) : Nat :=
  (List.foldl
    (fun (p : Nat × Nat) (e : Nat) => ⟨if uv &&& p.2 ≠ 0 then e else p.1, p.2 >>> 1⟩)
    ⟨0, 4096⟩ [7, 6, 5, 4, 3, 2, 1]).1

/-- The tail of pcm16_to_mulaw on the biased int32 value v:
exponent search, mantissa = (v >> (exponent+3)) & 0x0F (arithmetic shift on
int32 = floor division), byte = ~(sign | exponent<<4 | mantissa) & 0xFF. -/
def mulawCore (sign : Nat) (v : Int) : Nat :=
  let uv : Nat := (v % 4294967296).toNat
  let exponent : Nat := expFold uv
  let mantissa : Nat := ((v.fdiv (2 ^ (exponent + 3))) % 4294967296).toNat &&& 15
  (4294967295 ^^^ (sign ||| (exponent <<< 4) ||| mantissa)) &&& 255

/-- Clamp (np.minimum with MU_LAW_MAX) and bias, then the core. -/
def mulawFromMag (sign : Nat) (a : Int) : Nat := mulawCore sign (min a MU_LAW_MAX + BIAS)

/-- One sample of pcm16_to_mulaw: astype(int16), sign extraction, overflowing
np.abs, clamp, bias, exponent/mantissa, complemented byte. -/
def mulawByte (pcm : Int) : Nat := mulawFromMag (signBit (toInt16 pcm)) (absInt16 (toInt16 pcm))

/-- pcm16_to_mulaw: elementwise over the sample buffer. -/
def pcm16_to_mulaw (pcm : List Int) : List Nat := pcm.map mulawByte

/-- Claim recipe (for comparison with the source): the exponent as the position
of the highest set bit, found by a descending bitmask test starting at bit 12
that stops at the first set bit. -/
def expSpec (uv : Nat) : Nat :=
  if uv &&& 4096 ≠ 0 then 7
  else if uv &&& 2048 ≠ 0 then 6
  else if uv &&& 1024 ≠ 0 then 5
  else if uv &&& 512 ≠ 0 then 4
  else if uv &&& 256 ≠ 0 then 3
  else if uv &&& 128 ≠ 0 then 2
  else if uv &&& 64 ≠ 0 then 1
  else 0

/-- The claim's mu-law core: same as mulawCore but with the highest-set-bit
exponent of the spec recipe. -/
def mulawCoreSpec (sign : Nat) (v : Int) : Nat :=
  let uv : Nat := (v % 4294967296).toNat
  let exponent : Nat := expSpec uv
  let mantissa : Nat := ((v.fdiv (2 ^ (exponent + 3))) % 4294967296).toNat &&& 15
  (4294967295 ^^^ (sign ||| (exponent <<< 4) ||| mantissa)) &&& 255

/-- One sample encoded by the claim's recipe (sign, abs, clamp 8191, bias 33,
highest-set-bit exponent, mantissa, complement). -/
def mulawByteSpec (pcm : Int) : Nat :=
  mulawCoreSpec (signBit (toInt16 pcm)) (min (absInt16 (toInt16 pcm)) MU_LAW_MAX + BIAS)

/-- Modelled from the spec: the repository contains no mu-law decoder, so the
decoded magnitude of a compressed byte (needed by the round-trip ordering
property) is reconstructed here as the inverse of the encoding recipe:
complement the byte, split exponent and mantissa, rebuild the biased value at
the midpoint of its quantization cell, and remove the bias 33. -/
def mulawDecodeMag (u : Nat) : Int :=
  let c : Nat := 255 - u % 256
  let e : Nat := (c >>> 4) &&& 7
  let m : Nat := c &&& 15
  Int.ofNat m * 2 ^ (e + 3) + 2 ^ (e + 2) - 33

/-- Base64 alphabet character. -/
def b64char (n : Nat) : Char :=
  "ABCDEFGHIJKLMNOPQRSTUVWXYZabcdefghijklmnopqrstuvwxyz0123456789+/".toList.getD n (Char.ofNat 65)

/-- Standard base64 encoding of a byte list (RFC 4648, with padding), as the
source's base64.b64encode produces. -/
def b64encode : List Nat → List Char
  | [] => []
  | [a] => [b64char (a >>> 2), b64char ((a &&& 3) <<< 4), Char.ofNat 61, Char.ofNat 61]
  | [a, b] =>
    [b64char (a >>> 2), b64char (((a &&& 3) <<< 4) ||| (b >>> 4)),
     b64char ((b &&& 15) <<< 2), Char.ofNat 61]
  | a :: b :: c :: rest =>
    b64char (a >>> 2) :: b64char (((a &&& 3) <<< 4) ||| (b >>> 4)) ::
    b64char (((b &&& 15) <<< 2) ||| (c >>> 6)) :: b64char (c &&& 63) :: b64encode rest

/-- The linear samples of make_beep_mulaw.  The sample count is
int(sample_rate * duration_ms / 1000.0), i.e. truncating division (Nat
division here; exact for all realistic magnitudes of the float quotient).
The per-index sample value (0.2 * sin(2*pi*freq*i/rate) * 32767).astype(int16)
is a floating-point computation outside the embedding and is abstracted as the
sampler argument tone, applied to frequency, sample rate and index. -/
def beepPcm (tone : Nat → Nat → Nat → Int) (duration_ms freq_hz sample_rate : Nat) : List Int :=
  (List.range (sample_rate * duration_ms / 1000)).map (tone freq_hz sample_rate)

/-- make_beep_mulaw: synthesize the tone, compress it, base64-encode it. -/
def make_beep_mulaw (tone : Nat → Nat → Nat → Int)
    (duration_ms freq_hz sample_rate : Nat) : String :=
  String.mk (b64encode (pcm16_to_mulaw (beepPcm tone duration_ms freq_hz sample_rate)))

/-- An outbound frame written to the channel by twilio_ws: a media-tagged JSON
object carrying the stream sid and the base64 payload. -/
structure OutFrame where
  event : String
  streamSid : String
  payload : String
deriving DecidableEq

/-- The per-session mutable state of twilio_ws: stream_sid (None before start)
and last_beep_at (wall-clock seconds, modelled as a rational). -/
structure SessionState where
  stream_sid : Option String
  last_beep_at : Rat
deriving DecidableEq

/-- One inbound frame as twilio_ws sees it: either undecodable JSON
(json.loads raises), or a decoded object with its optional event field
(msg.get) and the optional start.streamSid field (a missing key makes
msg[start][streamSid] raise). -/
inductive Inbound where
  | malformed : Inbound
  | msg (event : Option String) (startSid : Option String) : Inbound
deriving DecidableEq

/-- Outcome of processing one inbound frame: continue the loop with a new
state, break out of the loop (stop event), or an exception raised in the body
and caught by the handler's except clause (both of the latter end the session;
neither propagates to the caller). -/
inductive StepResult where
  | next (s : SessionState) (out : List OutFrame) : StepResult
  | stopLoop (out : List OutFrame) : StepResult
  | failLoop (out : List OutFrame) : StepResult
deriving DecidableEq

/-- One iteration of the twilio_ws while-loop at wall-clock time now.
Mirrors the source dispatch: connected / start / media / stop by string
equality on the event field, anything else falls through and continues.
The media heartbeat guard is the Python truthiness test
(stream_sid and (now - last_beep_at) > 6.0): it requires a non-None,
NON-EMPTY stream_sid. -/
def handleFrame (tone : Nat → Nat → Nat → Int) (s : SessionState) (now : Rat) :
    Inbound → StepResult
  | .malformed => .failLoop []
  | .msg ev startSid =>
    if ev = some "connected" then .next s []
    else if ev = some "start" then
      match startSid with
      | none => .failLoop []
      | some sid => .next ⟨some sid, now⟩ [⟨"media", sid, make_beep_mulaw tone 300 880 8000⟩]
    else if ev = some "media" then
      match s.stream_sid with
      | none => .next s []
      | some sid =>
        if sid ≠ "" ∧ now - s.last_beep_at > 6 then
          .next ⟨some sid, now⟩ [⟨"media", sid, make_beep_mulaw tone 200 660 8000⟩]
        else .next s []
    else if ev = some "stop" then .stopLoop []
    else .next s []

/-- The whole session loop over a timed trace of inbound frames, collecting the
outbound frames.  A stop event or a caught exception ends the loop; in either
case twilio_ws returns normally (no exception reaches the caller). -/
def runSession (tone : Nat → Nat → Nat → Int) (s : SessionState) :
    List (Rat × Inbound) → List OutFrame
  | [] => []
  | (now, m) :: rest =>
    match handleFrame tone s now m with
    | .next s2 out => out ++ runSession tone s2 rest
    | .stopLoop out => out
    | .failLoop out => out

/-- Round to nearest with ties to even, of the fraction a / b (Python round),
used to state the claim's sample-count formula. -/
def roundHalfEven (a b : Nat) : Nat :=
  let q := a / b
  let r := a % b
  if 2 * r < b then q else if b < 2 * r then q + 1 else if q % 2 = 0 then q else q + 1

/-- A concrete zero sampler, used to instantiate the session model on concrete
traces. -/
def toneZero : Nat → Nat → Nat → Int := fun _ _ _ => 0

/-- Helper: compression is elementwise, so it preserves the buffer length. -/
theorem pcm16_to_mulaw_length (pcm : List Int) : (pcm16_to_mulaw pcm).length = pcm.length := by
  simp [pcm16_to_mulaw]

/-- Helper: base64 encoding of a nonempty byte list is nonempty. -/
theorem b64encode_ne_nil (l : List Nat) (h : l ≠ []) : b64encode l ≠ [] := by
  match l with
  | [] => exact absurd rfl h
  | [a] => simp [b64encode]
  | [a, b] => simp [b64encode]
  | a :: b :: c :: rest => simp [b64encode]

/-- Helper: a beep with a positive sample count has a nonempty base64 payload. -/
theorem make_beep_mulaw_ne_empty (tone : Nat → Nat → Nat → Int) (d f sr : Nat)
    (h : sr * d / 1000 ≠ 0) : make_beep_mulaw tone d f sr ≠ "" := by
  unfold make_beep_mulaw
  intro hc
  have hdata : b64encode (pcm16_to_mulaw (beepPcm tone d f sr)) = [] :=
    congrArg String.data hc
  have hlen : (pcm16_to_mulaw (beepPcm tone d f sr)).length = sr * d / 1000 := by
    simp [pcm16_to_mulaw, beepPcm]
  have hne : pcm16_to_mulaw (beepPcm tone d f sr) ≠ [] := by
    intro h0
    rw [h0] at hlen
    exact h hlen.symm
  exact b64encode_ne_nil _ hne hdata

/-- Claim C7: for every input sample buffer (hence also for lengths 0, 1 and
8000), pcm16_to_mulaw returns exactly as many bytes as there are samples. -/
theorem c7_output_length (pcm : List Int) : (pcm16_to_mulaw pcm).length = pcm.length :=
  pcm16_to_mulaw_length pcm

/-- Claim C8: a sample of magnitude 20000 compresses to the identical byte as a
sample of magnitude 8191 with the same sign; the out-of-range input is clamped,
never rejected (the encoder is total). -/
theorem c8_clamp_at_ceiling :
    mulawByte 20000 = mulawByte 8191 ∧ mulawByte (-20000) = mulawByte (-8191) ∧
    pcm16_to_mulaw [20000, -20000] = pcm16_to_mulaw [8191, -8191] := by
  decide

/-- Claim C1 (code bug): at sample 4127 the biased value 4160 has bits 12 and 6
set; the source loop, whose np.where passes overwrite the accumulator on every
set bit, ends at the LOWEST set bit (exponent 1, byte 235), while the claimed
recipe (highest set bit under the descending mask scan) gives exponent 7,
byte 139. -/
theorem c1_exponent_bug :
    pcm16_to_mulaw [4127] = [235] ∧ mulawByteSpec 4127 = 139 ∧
    mulawByte 4127 ≠ mulawByteSpec 4127 := by
  decide

/-- Claim C3 (code bug): samples 4094 and 4127 have increasing magnitudes below
the ceiling, yet the compressed byte of 4094 decodes to magnitude 4575 and that
of 4127 to magnitude 39, violating the round-trip magnitude ordering. -/
theorem c3_monotonicity_bug :
    (4094 : Int).natAbs < (4127 : Int).natAbs ∧ (4127 : Int).natAbs ≤ 8191 ∧
    mulawDecodeMag (mulawByte 4127) < mulawDecodeMag (mulawByte 4094) := by
  decide

/-- Claim C4 (amended): make_beep_mulaw generates exactly
sample_rate * duration_ms / 1000 (truncating division, as the source's int()
does) linear samples, and the companded byte sequence it base64-encodes has
exactly that many bytes. -/
theorem c4_sample_count (tone : Nat → Nat → Nat → Int) (d f sr : Nat) :
    (beepPcm tone d f sr).length = sr * d / 1000 ∧
    (pcm16_to_mulaw (beepPcm tone d f sr)).length = sr * d / 1000 := by
  constructor <;> simp [beepPcm, pcm16_to_mulaw]

/-- Claim C4 counterexample: at duration 1 ms and sample rate 1500 Hz the code
generates int(1.5) = 1 sample, but round(1.5) = 2, so the claimed round-based
count is wrong. -/
theorem c4_round_counterexample :
    (beepPcm toneZero 1 880 1500).length = 1 ∧ roundHalfEven (1500 * 1) 1000 = 2 ∧
    (1 : Nat) ≠ 2 := by
  refine ⟨by decide, by decide, by decide⟩

/-- Claim C2 (amended): a malformed frame raises inside json.loads; the
handler's except clause catches it (nothing propagates to the caller) and
returns, silently terminating that session: no outbound frame is produced and
the remaining frames of the trace are never processed. -/
theorem c2_malformed_terminates (tone : Nat → Nat → Nat → Int) (s : SessionState)
    (now : Rat) (rest : List (Rat × Inbound)) :
    handleFrame tone s now Inbound.malformed = StepResult.failLoop [] ∧
    runSession tone s ((now, Inbound.malformed) :: rest) = [] :=
  ⟨rfl, rfl⟩

/-- Claim C2 counterexample: after a malformed frame, a following start frame
produces no outbound frame, whereas the same start frame alone produces one:
the session does not skip the malformed frame and continue. -/
theorem c2_skip_counterexample :
    (runSession toneZero ⟨none, 0⟩
      [(0, Inbound.malformed), (1, Inbound.msg (some "start") (some "CA123"))]).length = 0 ∧
    (runSession toneZero ⟨none, 0⟩ [(1, Inbound.msg (some "start") (some "CA123"))]).length = 1 :=
  ⟨rfl, rfl⟩

/-- Claim C5: in the awaiting-start state, a start frame carrying a stream sid
captures the sid, sends exactly one outbound media-tagged frame with that sid
and a non-empty base64 companded payload (the 300 ms, 880 Hz greeting), and
records the heartbeat timestamp as the current time. -/
theorem c5_start_greeting (tone : Nat → Nat → Nat → Int) (lb now : Rat) (sid : String) :
    handleFrame tone ⟨none, lb⟩ now (Inbound.msg (some "start") (some sid)) =
      StepResult.next ⟨some sid, now⟩
        [⟨"media", sid, make_beep_mulaw tone 300 880 8000⟩] ∧
    make_beep_mulaw tone 300 880 8000 ≠ "" :=
  ⟨rfl, make_beep_mulaw_ne_empty tone 300 880 8000 (by decide)⟩

/-- Claim C6 (amended): in the active state with a NON-EMPTY captured sid, a
media frame sends exactly one heartbeat frame and updates the heartbeat
timestamp when more than 6 seconds elapsed since the last one, and otherwise
sends nothing and leaves the state unchanged.  (With an empty sid the Python
truthiness guard suppresses the heartbeat; see the counterexample.) -/
theorem c6_media_heartbeat (tone : Nat → Nat → Nat → Int) (sid : String) (lb now : Rat)
    (ss : Option String) (h : sid ≠ "") :
    handleFrame tone ⟨some sid, lb⟩ now (Inbound.msg (some "media") ss) =
      (if now - lb > 6 then
        StepResult.next ⟨some sid, now⟩
          [⟨"media", sid, make_beep_mulaw tone 200 660 8000⟩]
      else StepResult.next ⟨some sid, lb⟩ []) ∧
    make_beep_mulaw tone 200 660 8000 ≠ "" := by
  constructor
  · have h0 : handleFrame tone ⟨some sid, lb⟩ now (Inbound.msg (some "media") ss) =
        (if sid ≠ "" ∧ now - lb > 6 then
          StepResult.next ⟨some sid, now⟩
            [⟨"media", sid, make_beep_mulaw tone 200 660 8000⟩]
        else StepResult.next ⟨some sid, lb⟩ []) := rfl
    rw [h0]
    by_cases hp : now - lb > 6
    · rw [if_pos ⟨h, hp⟩, if_pos hp]
    · rw [if_neg (fun hc => hp hc.2), if_neg hp]
  · exact make_beep_mulaw_ne_empty tone 200 660 8000 (by decide)

/-- Witness for claim C6 at a concrete active session. -/
theorem c6_media_heartbeat_witness :
    ("CA123" : String) ≠ "" ∧
    (handleFrame toneZero ⟨some "CA123", 0⟩ 10 (Inbound.msg (some "media") none) =
      (if (10 : Rat) - 0 > 6 then
        StepResult.next ⟨some "CA123", 10⟩
          [⟨"media", "CA123", make_beep_mulaw toneZero 200 660 8000⟩]
      else StepResult.next ⟨some "CA123", 0⟩ []) ∧
     make_beep_mulaw toneZero 200 660 8000 ≠ "") :=
  ⟨by decide, c6_media_heartbeat toneZero "CA123" 0 10 none (by decide)⟩

/-- Claim C6 counterexample: with the captured sid being the empty string and
10 seconds elapsed (more than 6), the media frame produces zero outbound frames
because the guard tests Python truthiness of stream_sid, not only that it was
set. -/
theorem c6_empty_sid_counterexample :
    handleFrame toneZero ⟨some "", 0⟩ 10 (Inbound.msg (some "media") none) =
      StepResult.next ⟨some "", 0⟩ [] ∧ (10 : Rat) - 0 > 6 :=
  ⟨rfl, by norm_num⟩

/-- Claim C9: an inbound frame whose event is none of connected, start, media
or stop falls through every dispatch test: no outbound frame, state (sid and
heartbeat timestamp) unchanged, and the loop keeps processing the rest of the
trace. -/
theorem c9_unknown_event (tone : Nat → Nat → Nat → Int) (s : SessionState) (now : Rat)
    (ev ss : Option String) (rest : List (Rat × Inbound))
    (h1 : ev ≠ some "connected") (h2 : ev ≠ some "start") (h3 : ev ≠ some "media")
    (h4 : ev ≠ some "stop") :
    handleFrame tone s now (Inbound.msg ev ss) = StepResult.next s [] ∧
    runSession tone s ((now, Inbound.msg ev ss) :: rest) = runSession tone s rest := by
  have heq : handleFrame tone s now (Inbound.msg ev ss) = StepResult.next s [] := by
    show (if ev = some "connected" then StepResult.next s [] else _) = _
    rw [if_neg h1, if_neg h2, if_neg h3, if_neg h4]
  refine ⟨heq, ?_⟩
  simp only [runSession, heq, List.nil_append]

/-- Witness for claim C9 at the dtmf event in the initial state. -/
theorem c9_unknown_event_witness :
    (some "dtmf" ≠ some "connected") ∧ (some "dtmf" ≠ some "start") ∧
    (some "dtmf" ≠ some "media") ∧ (some "dtmf" ≠ some "stop") ∧
    (handleFrame toneZero ⟨none, 0⟩ 0 (Inbound.msg (some "dtmf") none) =
       StepResult.next ⟨none, 0⟩ [] ∧
     runSession toneZero ⟨none, 0⟩ [(0, Inbound.msg (some "dtmf") none)] =
       runSession toneZero ⟨none, 0⟩ []) :=
  ⟨by decide, by decide, by decide, by decide,
   c9_unknown_event toneZero ⟨none, 0⟩ 0 (some "dtmf") none []
     (by decide) (by decide) (by decide) (by decide)⟩

/-- Helper: masking bit 7 of a value below 128 gives 0. -/
theorem land128_zero (b : Nat) (h : b < 128) : b &&& 128 = 0 :=
  (by decide : ∀ c, c < 128 → c &&& 128 = 0) b h

/-- Helper: masking bit 7 of a byte of value at least 128 gives 128. -/
theorem land128_high (b : Nat) (hlt : b < 256) (hge : 128 ≤ b) : b &&& 128 = 128 :=
  (by decide : ∀ c, c < 256 → 128 ≤ c → c &&& 128 = 128) b hlt hge

/-- Helper: the int16 wrap is the identity on the int16 range. -/
theorem toInt16_eq_self (x : Int) (h1 : -32768 ≤ x) (h2 : x ≤ 32767) : toInt16 x = x := by
  unfold toInt16
  omega

/-- Helper: the sign byte of a nonnegative int16 sample is 0. -/
theorem signBit_nonneg (x : Int) (h1 : 0 ≤ x) (h2 : x ≤ 32767) : signBit x = 0 := by
  unfold signBit
  rw [Nat.shiftRight_eq_div_pow]
  apply land128_zero
  have hb : int16Bits x < 32768 := by unfold int16Bits; omega
  have h256 : (2 : Nat) ^ 8 = 256 := by norm_num
  rw [h256]
  omega

/-- Helper: the sign byte of a negative int16 sample is 0x80. -/
theorem signBit_neg (x : Int) (h1 : -32768 ≤ x) (h2 : x < 0) : signBit x = 128 := by
  unfold signBit
  rw [Nat.shiftRight_eq_div_pow]
  have hb1 : 32768 ≤ int16Bits x := by unfold int16Bits; omega
  have hb2 : int16Bits x < 65536 := by unfold int16Bits; omega
  have h256 : (2 : Nat) ^ 8 = 256 := by norm_num
  rw [h256]
  apply land128_high <;> omega

/-- Helper: the wrapping absolute value is the identity on nonnegative int16. -/
theorem absInt16_nonneg (x : Int) (h1 : 0 ≤ x) (h2 : x ≤ 32767) : absInt16 x = x := by
  unfold absInt16 toInt16
  omega

/-- Helper: the wrapping absolute value is the negation on negative int16
values other than -32768 (which wraps). -/
theorem absInt16_negval (x : Int) (h1 : -32767 ≤ x) (h2 : x < 0) : absInt16 x = -x := by
  unfold absInt16 toInt16
  omega

/-- Helper: every magnitude at or above the ceiling is clamped to the ceiling
before the bias, so it compresses like the ceiling itself. -/
theorem mulawFromMag_clamp (sign : Nat) (a : Int) (h : MU_LAW_MAX ≤ a) :
    mulawFromMag sign a = mulawFromMag sign MU_LAW_MAX := by
  unfold mulawFromMag
  rw [min_eq_right h, min_self]

/-- Claim C10: on the whole int16 range, every sample of magnitude at least
8191 compresses to the same byte as the ceiling sample of the same sign; the
extreme -32768, whose np.abs overflows to -32768 and therefore follows a
different (negative, unclamped) computation path, still lands on that same
byte. -/
theorem c10_full_range_clamp (x : Int) (hlo : -32768 ≤ x) (hhi : x ≤ 32767)
    (hmag : 8191 ≤ x.natAbs) :
    mulawByte x = mulawByte (if x < 0 then -8191 else 8191) := by
  by_cases hneg : x < 0
  · rw [if_pos hneg]
    by_cases hmin : x = -32768
    · subst hmin
      decide
    · have hx1 : -32767 ≤ x := by omega
      have hx2 : x ≤ -8191 := by omega
      unfold mulawByte
      rw [toInt16_eq_self x hlo hhi, signBit_neg x hlo hneg, absInt16_negval x hx1 hneg]
      rw [toInt16_eq_self (-8191) (by norm_num) (by norm_num),
          signBit_neg (-8191) (by norm_num) (by norm_num),
          absInt16_negval (-8191) (by norm_num) (by norm_num)]
      have hc : mulawFromMag 128 (-x) = mulawFromMag 128 MU_LAW_MAX := by
        apply mulawFromMag_clamp
        show (8191 : Int) ≤ -x
        omega
      rw [hc]
      norm_num [MU_LAW_MAX]
  · rw [if_neg hneg]
    have hx0 : (0 : Int) ≤ x := by omega
    unfold mulawByte
    rw [toInt16_eq_self x hlo hhi, signBit_nonneg x hx0 hhi, absInt16_nonneg x hx0 hhi]
    rw [toInt16_eq_self 8191 (by norm_num) (by norm_num),
        signBit_nonneg 8191 (by norm_num) (by norm_num),
        absInt16_nonneg 8191 (by norm_num) (by norm_num)]
    apply mulawFromMag_clamp
    show (8191 : Int) ≤ x
    omega

/-- Witness for claim C10 at the overflowing extreme -32768. -/
theorem c10_full_range_clamp_witness :
    (-32768 : Int) ≤ -32768 ∧ (-32768 : Int) ≤ 32767 ∧ 8191 ≤ (-32768 : Int).natAbs ∧
    mulawByte (-32768) = mulawByte (if (-32768 : Int) < 0 then -8191 else 8191) :=
  ⟨by norm_num, by norm_num, by decide,
   c10_full_range_clamp (-32768) (by norm_num) (by norm_num) (by decide)⟩

end AmharicVoice
